import Mathlib

/-!
Verification of the TelegramFileUploader repository (`src/main.py`).

The Python module is embedded shallowly:

* `build_message_url`, `validate_env`, `process_files_arg` and
  `write_github_output` are pure (or environment-reading) functions and are
  translated directly.
* the async orchestrator `main` is modelled as a function over an explicit
  `Client` record of the three external Telethon calls it performs
  (`upload_file`, `send_file`, `get_entity`), returning both the trace of
  upload/send calls it issued and its result (`Except` models an uncaught
  Python exception propagating out of `main`).
* Python-library primitives used by the module (`str.splitlines`,
  `str.strip`, `int(...)`, `','.join`, truthiness of optional strings) are
  given executable Lean counterparts named `py...`.
-/

namespace TFU

/-- Peer descriptor attached to a sent message: `PeerChannel`, `PeerChat` or
`PeerUser` from `telethon.tl.types`, each carrying one numeric id field
(`channel_id`, `chat_id`, `user_id`).  Python integers are unbounded, so the
ids are `Nat` (Telegram ids in these fields are non-negative). -/
inductive Peer where
  | channel (channel_id : Nat)
  | chat (chat_id : Nat)
  | user (user_id : Nat)
  deriving DecidableEq

/-- Numeric identifier carried by a peer descriptor (the field
`build_message_url` interpolates in the no-username branches). -/
def Peer.numId : Peer → Nat
  | .channel i => i
  | .chat i => i
  | .user i => i

/-- Python truthiness of an optional string (`if chat_username:`,
`if not api_id:` …): `None` and the empty string are falsy, every other
string is truthy. -/
def pyTruthy : Option String → Bool
  | none => false
  | some s => s ≠ ""

/-- Embedding of `build_message_url(peer_id, message_id, chat_username)`:
if `chat_username` is truthy return `https://t.me/{chat_username}/{message_id}`,
otherwise branch on the class of `peer_id` and return
`https://t.me/c/{id}/{message_id}`.  f-string interpolation of a Python int
is decimal, i.e. `Nat.repr`. -/
def build_message_url (peer_id : Peer) (message_id : Nat)
    (chat_username : Option String) : String :=
  if pyTruthy chat_username then
    "https://t.me/" ++ chat_username.getD "" ++ "/" ++ Nat.repr message_id
  else
    match peer_id with
    | .channel cid => "https://t.me/c/" ++ Nat.repr cid ++ "/" ++ Nat.repr message_id
    | .chat cid => "https://t.me/c/" ++ Nat.repr cid ++ "/" ++ Nat.repr message_id
    | .user uid => "https://t.me/c/" ++ Nat.repr uid ++ "/" ++ Nat.repr message_id

/-! ### Environment validation -/

/-- ASCII whitespace stripped by Python's `str.strip()` (the exotic Unicode
space characters Python also strips are not used by this program's inputs). -/
def isPySpace (c : Char) : Bool :=
  c == ' ' || c == '\t' || c == '\n' || c == '\r' || c == '\x0b' || c == '\x0c'

/-- Embedding of Python `str.strip()`: drop leading and trailing whitespace. -/
def pyStrip (s : String) : String :=
  ⟨((s.data.dropWhile isPySpace).reverse.dropWhile isPySpace).reverse⟩

/-- Digit accumulator for `pyInt`: after an initial digit, Python's integer
literal grammar allows further digits with single underscores between
digits. -/
def pyIntDigitsAux : List Char → Nat → Option Nat
  | [], acc => some acc
  | '_' :: c :: cs, acc =>
    if c.isDigit then pyIntDigitsAux cs (acc * 10 + (c.toNat - '0'.toNat)) else none
  | ['_'], _ => none
  | c :: cs, acc =>
    if c.isDigit then pyIntDigitsAux cs (acc * 10 + (c.toNat - '0'.toNat)) else none

/-- Parse a non-empty run of decimal digits (single underscores allowed
between digits, as in Python's `int`). -/
def pyIntDigits : List Char → Option Nat
  | [] => none
  | c :: cs => if c.isDigit then pyIntDigitsAux cs (c.toNat - '0'.toNat) else none

/-- Models Python `int(s)` on a string: surrounding whitespace is ignored, an
optional sign precedes a non-empty digit run; `none` models the `ValueError`
raised on any other input. -/
def pyInt (s : String) : Option Int :=
  match (pyStrip s).data with
  | '+' :: rest => (pyIntDigits rest).map Int.ofNat
  | '-' :: rest => (pyIntDigits rest).map (fun n => -(n : Int))
  | rest => (pyIntDigits rest).map Int.ofNat

/-- Observable outcome of `validate_env`: a returned triple, a diagnostic
`print(f"{key} is missing")` followed by `exit(1)`, or an uncaught
`ValueError` escaping from `int(api_id)`. -/
inductive EnvOutcome where
  | ok (api_id : Int) (api_hash : String) (bot_token : String)
  | exitMissing (key : String)
  | valueError (raw : String)
  deriving DecidableEq

/-- Embedding of `validate_env()` over an environment `environ.get`:
check `API_ID` for truthiness, convert it with `int`, then check `API_HASH`
and `BOT_TOKEN` for truthiness, in that order. -/
def validate_env (env : String → Option String) : EnvOutcome :=
  let api_id := env "API_ID"
  if pyTruthy api_id then
    match pyInt (api_id.getD "") with
    | none => .valueError (api_id.getD "")
    | some n =>
      let api_hash := env "API_HASH"
      if pyTruthy api_hash then
        let bot_token := env "BOT_TOKEN"
        if pyTruthy bot_token then
          .ok n (api_hash.getD "") (bot_token.getD "")
        else .exitMissing "BOT_TOKEN"
      else .exitMissing "API_HASH"
  else .exitMissing "API_ID"

/-! ### CLI files-argument normalisation -/

/-- Line-boundary characters of Python `str.splitlines`. -/
def isLineBoundary (c : Char) : Bool :=
  c == '\n' || c == '\r' || c == '\x0b' || c == '\x0c' ||
  c == '\x1c' || c == '\x1d' || c == '\x1e' || c == '\x85' ||
  c == '\u2028' || c == '\u2029'

/-- Worker for `pySplitlines`; `acc` holds the current line reversed.
`"\r\n"` counts as a single boundary, and a trailing boundary does not
produce a final empty line. -/
def pySplitlinesAux : List Char → List Char → List String
  | [], [] => []
  | [], acc => [⟨acc.reverse⟩]
  | '\r' :: '\n' :: rest, acc => ⟨acc.reverse⟩ :: pySplitlinesAux rest []
  | c :: rest, acc =>
    if isLineBoundary c then ⟨acc.reverse⟩ :: pySplitlinesAux rest []
    else pySplitlinesAux rest (c :: acc)

/-- Embedding of Python `str.splitlines()`. -/
def pySplitlines (s : String) : List String :=
  pySplitlinesAux s.data []

/-- Embedding of `process_files_arg(files)`: for each raw argument, split it
into lines, strip each line, and keep the stripped line when it is truthy
(non-empty), concatenating across arguments in order. -/
def process_files_arg (files : List String) : List String :=
  files.flatMap (fun file_arg =>
    (pySplitlines file_arg).filterMap (fun arg =>
      if pyStrip arg = "" then none else some (pyStrip arg)))

/-! ### Upload orchestrator -/

/-- Result record of `main`: `UploadResult(message_urls=…, message_ids=…)`. -/
structure UploadResult where
  message_urls : List String
  message_ids : List Nat
  deriving DecidableEq

/-- One sent `Message` as far as `main` reads it: its `id` and its
`peer_id`. -/
structure Message where
  id : Nat
  peer_id : Peer
  deriving DecidableEq

/-- Return value of `client.send_file`: Telethon returns a single `Message`
when one file is sent and a list of `Message`s otherwise. -/
inductive SendRet where
  | single (m : Message)
  | listed (ms : List Message)
  deriving DecidableEq

/-- Embedding of the normalisation `if not isinstance(sent_messages, list):
sent_messages = [sent_messages]`. -/
def normalizeSent : SendRet → List Message
  | .single m => [m]
  | .listed ms => ms

/-- The external Telethon client, as the orchestrator uses it.  Each call
either returns a value or raises (`Except.error`).  `get_entity` is combined
with the subsequent `getattr(entity, "username", None)`, so its success value
is the optional username attribute.  `ε` is the type of raised exceptions and
`F` the type of uploaded-file handles. -/
structure Client (ε F : Type) where
  upload_file : String → Except ε F
  send_file : String → List F → List (Option String) → Except ε SendRet
  get_entity : String → Except ε (Option String)

/-- Observable external calls of the orchestrator (upload and grouped send). -/
inductive Event (F : Type) where
  | uploadCall (file : String)
  | sendCall (dest : String) (files : List F) (captions : List (Option String))
  deriving DecidableEq

/-- The caption list built by `main`:
`message_list = [None for i in range(len(uploaded_files) - 1)]` followed by
`message_list.append(message)`.  (`range` of a negative number is empty, as
is `List.replicate` at `0`, so truncated subtraction is faithful.) -/
def captionList (message : String) (n : Nat) : List (Option String) :=
  List.replicate (n - 1) none ++ [some message]

/-- The per-file upload loop of `main`: upload each file in order, stopping
at (and propagating) the first raised error; also records the calls made. -/
def uploadLoop (client : Client ε F) : List String → List (Event F) × Except ε (List F)
  | [] => ([], .ok [])
  | f :: fs =>
    match client.upload_file f with
    | .error e => ([.uploadCall f], .error e)
    | .ok ufile =>
      let (tr, rest) := uploadLoop client fs
      (.uploadCall f :: tr, rest.map (fun l => ufile :: l))

/-- The `try: entity = await client.get_entity(to); chat_username =
getattr(entity, "username", None) except Exception: pass` block of `main`:
any resolution failure is swallowed and leaves `chat_username = None`. -/
def usernameOf (client : Client ε F) (dest : String) : Option String :=
  match client.get_entity dest with
  | .ok u => u
  | .error _ => none

/-- Embedding of `async def main(client, to, message, files)`: upload the
files sequentially, send them as one grouped message whose caption list puts
`message` on the last file only, resolve the chat username best-effort
(failures are swallowed and degrade to `None`), and build one URL and one id
per sent message.  The first component is the trace of upload/send calls, the
second the propagated exception or the returned `UploadResult`. -/
def main (client : Client ε F) (dest message : String) (files : List String) :
    List (Event F) × Except ε UploadResult :=
  match uploadLoop client files with
  | (tr, .error e) => (tr, .error e)
  | (tr, .ok uploaded_files) =>
    let message_list := captionList message uploaded_files.length
    match client.send_file dest uploaded_files message_list with
    | .error e => (tr ++ [.sendCall dest uploaded_files message_list], .error e)
    | .ok sr =>
      let sent_messages := normalizeSent sr
      let chat_username := usernameOf client dest
      let message_urls := sent_messages.map
        (fun msg => build_message_url msg.peer_id msg.id chat_username)
      let message_ids := sent_messages.map (fun msg => msg.id)
      (tr ++ [.sendCall dest uploaded_files message_list],
       .ok ⟨message_urls, message_ids⟩)

/-- The file handles of a list of successfully uploaded files. -/
def uploadsOf (client : Client ε F) (files : List String) : List F :=
  files.filterMap (fun f => (client.upload_file f).toOption)

/-! ### Result reporter -/

/-- Embedding of Python `','.join(strs)`. -/
def joinComma : List String → String
  | [] => ""
  | [s] => s
  | s :: rest => s ++ "," ++ joinComma rest

/-- Outcome of `write_github_output`: no sink configured (`noop`), the full
four lines appended (`ok`), or an `IndexError` raised part-way with the
already-appended text (`indexError`) — the file is opened in append mode, so
the payload is what gets added to the sink. -/
inductive WriteOutcome where
  | noop
  | ok (appended : String)
  | indexError (appended : String)
  deriving DecidableEq

/-- Embedding of `write_github_output(result)`: if `GITHUB_OUTPUT` is not
truthy, return; otherwise append the `message_urls`, `message_ids`,
`message_url`, `message_id` lines in order, raising `IndexError` at the first
`[0]` access on an empty list (the writes already made stay in the file). -/
def write_github_output (github_output : Option String) (result : UploadResult) :
    WriteOutcome :=
  if pyTruthy github_output then
    let l1 := "message_urls=" ++ joinComma result.message_urls ++ "\n"
    let l2 := "message_ids=" ++ joinComma (result.message_ids.map Nat.repr) ++ "\n"
    match result.message_urls with
    | [] => .indexError (l1 ++ l2)
    | u0 :: _ =>
      let l3 := "message_url=" ++ u0 ++ "\n"
      match result.message_ids with
      | [] => .indexError (l1 ++ l2 ++ l3)
      | i0 :: _ => .ok (l1 ++ l2 ++ l3 ++ "message_id=" ++ Nat.repr i0 ++ "\n")
  else .noop

/-- Splitter for `pySplitComma`; `acc` holds the current field reversed. -/
def pySplitCommaAux : List Char → List Char → List String
  | [], acc => [⟨acc.reverse⟩]
  | c :: cs, acc =>
    if c = ',' then ⟨acc.reverse⟩ :: pySplitCommaAux cs []
    else pySplitCommaAux cs (c :: acc)

/-- Embedding of Python `s.split(",")` (used to re-parse the sink file's
comma-joined values): note `"".split(",") == [""]`. -/
def pySplitComma (s : String) : List String :=
  pySplitCommaAux s.data []

/-! ### Concrete inputs used to instantiate the theorems -/

/-- Environment where all three keys are present and `API_ID` is numeric,
but `API_HASH` is the empty string. -/
def envHashEmpty : String → Option String
  | "API_ID" => some "123"
  | "API_HASH" => some ""
  | "BOT_TOKEN" => some "tok"
  | _ => none

/-- Well-formed environment with all three keys present and non-empty. -/
def envGood : String → Option String
  | "API_ID" => some "123"
  | "API_HASH" => some "hash"
  | "BOT_TOKEN" => some "tok"
  | _ => none

/-- Always-succeeding client: uploading a path returns its length as handle,
sending `n` handles returns one message per handle with id `100 + handle` in
channel `555`, and entity resolution finds no username. -/
def demoClient : Client Unit Nat where
  upload_file := fun f => .ok f.length
  send_file := fun _ ufs _ => .ok (.listed (ufs.map fun u => ⟨100 + u, .channel 555⟩))
  get_entity := fun _ => .ok none

/-- Client whose upload of the path "bad" raises; everything else succeeds. -/
def failUploadClient : Client String Nat where
  upload_file := fun f => if f = "bad" then .error "upload boom" else .ok f.length
  send_file := fun _ ufs _ => .ok (.listed (ufs.map fun u => ⟨100 + u, .channel 555⟩))
  get_entity := fun _ => .ok none

/-- Client whose grouped send always raises. -/
def failSendClient : Client String Nat where
  upload_file := fun f => .ok f.length
  send_file := fun _ _ _ => .error "send boom"
  get_entity := fun _ => .ok none

/-- Client whose entity resolution always raises. -/
def failEntityClient : Client String Nat where
  upload_file := fun f => .ok f.length
  send_file := fun _ ufs _ => .ok (.listed (ufs.map fun u => ⟨100 + u, .channel 555⟩))
  get_entity := fun _ => .error "resolve boom"

/-! ## Theorems -/

/-- C1: `build_message_url` is a pure total function.  A present, non-empty
alias yields `https://t.me/{alias}/{message_id}` regardless of the peer tag;
an absent or empty alias yields `https://t.me/c/{numeric id}/{message_id}`
for all three tags; the listed examples hold, and a channel id beyond 32-bit
range is rendered in full decimal. -/
theorem C1_build_message_url_spec (peer : Peer) (mid : Nat) (al : Option String) :
    (∀ a, al = some a → a ≠ "" →
      build_message_url peer mid al = "https://t.me/" ++ a ++ "/" ++ Nat.repr mid)
    ∧ (al = none ∨ al = some "" →
      build_message_url peer mid al =
        "https://t.me/c/" ++ Nat.repr peer.numId ++ "/" ++ Nat.repr mid)
    ∧ build_message_url (.channel 123456) 42 none = "https://t.me/c/123456/42"
    ∧ build_message_url (.channel 123456) 42 (some "mychannel") =
        "https://t.me/mychannel/42"
    ∧ build_message_url (.user 111) 5 none = "https://t.me/c/111/5"
    ∧ build_message_url (.channel (2 ^ 40)) 42 none =
        "https://t.me/c/1099511627776/42" := by
  refine ⟨?_, ?_, by decide, by decide, by decide, by decide⟩
  · intro a ha hane
    subst ha
    simp [build_message_url, pyTruthy, hane]
  · rintro (rfl | rfl) <;> cases peer <;>
      simp [build_message_url, pyTruthy, Peer.numId]

/-- Witness for C1 at a concrete peer, message id and alias. -/
theorem C1_build_message_url_spec_witness :
    build_message_url (.chat 9) 3 (some "alias9") = "https://t.me/alias9/3" :=
  (C1_build_message_url_spec (.chat 9) 3 (some "alias9")).1 "alias9" rfl (by decide)

/-- C4 counterexample: all three keys are present and `API_ID` parses as an
integer, but `API_HASH` is the empty string, so `validate_env` prints
"API_HASH is missing" and exits 1 instead of returning the triple — Python
truthiness treats a present-but-empty value like a missing one. -/
theorem C4_validate_env_counterexample :
    validate_env envHashEmpty = .exitMissing "API_HASH"
    ∧ ∀ n h b, validate_env envHashEmpty ≠ .ok n h b := by
  refine ⟨rfl, ?_⟩
  intro n h b hc
  rw [show validate_env envHashEmpty = .exitMissing "API_HASH" from rfl] at hc
  exact EnvOutcome.noConfusion hc

/-- C4 (amended): keys count as present only when non-empty.  With all three
keys present non-empty and `API_ID` parsing as an integer, `validate_env`
returns the triple with `API_ID` coerced; the first falsy value in the order
`API_ID`, `API_HASH`, `BOT_TOKEN` causes the corresponding diagnostic and
exit 1 (the `API_ID` parse happening before the other two keys are read);
and a truthy but non-numeric `API_ID` raises an uncaught `ValueError`. -/
theorem C4_validate_env_spec (env : String → Option String) :
    (∀ a h b na, env "API_ID" = some a → a ≠ "" → pyInt a = some na →
      env "API_HASH" = some h → h ≠ "" → env "BOT_TOKEN" = some b → b ≠ "" →
      validate_env env = .ok na h b)
    ∧ (pyTruthy (env "API_ID") = false → validate_env env = .exitMissing "API_ID")
    ∧ (∀ a na, env "API_ID" = some a → a ≠ "" → pyInt a = some na →
        pyTruthy (env "API_HASH") = false →
        validate_env env = .exitMissing "API_HASH")
    ∧ (∀ a h na, env "API_ID" = some a → a ≠ "" → pyInt a = some na →
        env "API_HASH" = some h → h ≠ "" → pyTruthy (env "BOT_TOKEN") = false →
        validate_env env = .exitMissing "BOT_TOKEN")
    ∧ (∀ a, env "API_ID" = some a → a ≠ "" → pyInt a = none →
        validate_env env = .valueError a) := by
  refine ⟨?_, ?_, ?_, ?_, ?_⟩
  · intro a h b na ha hane hparse hh hhne hb hbne
    simp [validate_env, ha, hh, hb, pyTruthy, hane, hhne, hbne, hparse]
  · intro hfalse
    simp [validate_env, hfalse]
  · intro a na ha hane hparse hfalse
    simp [validate_env, ha, pyTruthy, hane, hparse, hfalse]
    simp [pyTruthy] at hfalse
    simp [hfalse]
  · intro a h na ha hane hparse hh hhne hfalse
    simp [validate_env, ha, hh, pyTruthy, hane, hhne, hparse]
    simp [pyTruthy] at hfalse
    simp [hfalse]
  · intro a ha hane hparse
    simp [validate_env, ha, pyTruthy, hane, hparse]

/-- Witness for C4 on a fully well-formed environment. -/
theorem C4_validate_env_spec_witness :
    validate_env envGood = .ok 123 "hash" "tok" :=
  (C4_validate_env_spec envGood).1 "123" "hash" "tok" 123 rfl (by decide) (by decide)
    rfl (by decide) rfl (by decide)

/-- C10: with a sink configured, the zero-entry `UploadResult` makes
`write_github_output` append the `message_urls=` and `message_ids=` lines
with empty values and then raise `IndexError` at `message_urls[0]`; the
convenience lines are never written and the two written lines stay in the
sink (the write is not atomic on this error). -/
theorem C10_write_github_output_empty (path : String) (hp : path ≠ "") :
    write_github_output (some path) ⟨[], []⟩ =
      .indexError "message_urls=\nmessage_ids=\n" := by
  have ht : pyTruthy (some path) = true := by simp [pyTruthy, hp]
  simp [write_github_output, ht, joinComma]

/-- Witness for C10 at a concrete sink path. -/
theorem C10_write_github_output_empty_witness :
    write_github_output (some "out.txt") ⟨[], []⟩ =
      .indexError "message_urls=\nmessage_ids=\n" :=
  C10_write_github_output_empty "out.txt" (by decide)

/-- C6 counterexample: the claim quantifies over every `UploadResult`, but at
the zero-entry result the reporter does not append four lines — it raises
`IndexError` after the first two. -/
theorem C6_write_github_output_counterexample :
    write_github_output (some "out") ⟨[], []⟩ =
      .indexError "message_urls=\nmessage_ids=\n"
    ∧ ∀ s, write_github_output (some "out") ⟨[], []⟩ ≠ .ok s := by
  refine ⟨by decide, ?_⟩
  intro s hc
  rw [show write_github_output (some "out") (⟨[], []⟩ : UploadResult) =
      .indexError "message_urls=\nmessage_ids=\n" from by decide] at hc
  exact WriteOutcome.noConfusion hc

/-- With a truthy sink and both lists non-empty, the reporter appends
exactly the four `key=value` lines in order. -/
theorem write_github_output_ok (r : UploadResult) (path : String)
    (hp : path ≠ "") (u0 : String) (us : List String) (i0 : Nat) (is0 : List Nat)
    (hu : r.message_urls = u0 :: us) (hi : r.message_ids = i0 :: is0) :
    write_github_output (some path) r =
      .ok ("message_urls=" ++ joinComma r.message_urls ++ "\n" ++
        ("message_ids=" ++ joinComma (r.message_ids.map Nat.repr) ++ "\n") ++
        ("message_url=" ++ u0 ++ "\n") ++
        "message_id=" ++ Nat.repr i0 ++ "\n") := by
  have ht : pyTruthy (some path) = true := by simp [pyTruthy, hp]
  obtain ⟨urls, ids⟩ := r
  simp only at hu hi
  subst hu hi
  simp [write_github_output, ht]

/-- C6 (amended): for every `UploadResult` whose two lists are non-empty,
a configured sink gets exactly the four `key=value` lines appended in the
order `message_urls`, `message_ids`, `message_url`, `message_id` (the values
being the comma-joined URLs, the comma-joined decimal ids, the first URL and
the first id); with no sink configured the call is a no-op. -/
theorem C6_write_github_output_spec (r : UploadResult) (path : String)
    (hp : path ≠ "") (u0 : String) (us : List String) (i0 : Nat) (is0 : List Nat)
    (hu : r.message_urls = u0 :: us) (hi : r.message_ids = i0 :: is0) :
    write_github_output (some path) r =
      .ok ("message_urls=" ++ joinComma r.message_urls ++ "\n" ++
        ("message_ids=" ++ joinComma (r.message_ids.map Nat.repr) ++ "\n") ++
        ("message_url=" ++ u0 ++ "\n") ++
        "message_id=" ++ Nat.repr i0 ++ "\n")
    ∧ write_github_output none r = .noop :=
  ⟨write_github_output_ok r path hp u0 us i0 is0 hu hi, rfl⟩

/-- Witness for C6 on a one-entry result and a concrete sink path. -/
theorem C6_write_github_output_spec_witness :
    write_github_output (some "out") ⟨["https://t.me/c/5/7"], [7]⟩ =
      .ok ("message_urls=" ++ joinComma ["https://t.me/c/5/7"] ++ "\n" ++
        ("message_ids=" ++ joinComma ([7].map Nat.repr) ++ "\n") ++
        ("message_url=" ++ "https://t.me/c/5/7" ++ "\n") ++
        "message_id=" ++ Nat.repr 7 ++ "\n")
    ∧ write_github_output none ⟨["https://t.me/c/5/7"], [7]⟩ = .noop :=
  C6_write_github_output_spec ⟨["https://t.me/c/5/7"], [7]⟩ "out" (by decide)
    "https://t.me/c/5/7" [] 7 [] rfl rfl

/-- The data of a stripped string, phrased through `List.rdropWhile`. -/
theorem pyStrip_data (s : String) :
    (pyStrip s).data = List.rdropWhile isPySpace (s.data.dropWhile isPySpace) :=
  rfl

/-- Dropping leading whitespace again after a right-strip changes nothing,
provided the list already had no leading whitespace. -/
theorem dropWhile_rdropWhile (p : α → Bool) (l : List α)
    (h : List.dropWhile p l = l) :
    List.dropWhile p (List.rdropWhile p l) = List.rdropWhile p l := by
  obtain ⟨t, ht⟩ := List.rdropWhile_prefix p l
  cases hr : List.rdropWhile p l with
  | nil => simp
  | cons c cs =>
    have hl : l = c :: (cs ++ t) := by rw [← ht, hr]; simp
    rw [hl, List.dropWhile_cons] at h
    by_cases hpc : p c = true
    · rw [if_pos hpc] at h
      have hlen := congrArg List.length h
      have hle := (List.dropWhile_sublist (l := cs ++ t) p).length_le
      simp only [List.length_cons] at hlen
      omega
    · have hf : p c = false := by simpa using hpc
      simp [List.dropWhile_cons, hf]

/-- Python `strip` is idempotent. -/
theorem pyStrip_idem (s : String) : pyStrip (pyStrip s) = pyStrip s := by
  apply String.ext
  rw [pyStrip_data (pyStrip s), pyStrip_data s,
    dropWhile_rdropWhile isPySpace _ (List.dropWhile_idempotent isPySpace s.data),
    List.rdropWhile_idempotent]

/-- C3: `process_files_arg` concatenates, in input order, the stripped lines
of each raw argument, discarding lines that strip to empty; every output
entry is non-empty and already stripped (internal whitespace untouched), and
each is the strip of an actual line of an actual input; the three listed
examples hold. -/
theorem C3_process_files_arg_spec (files : List String) :
    (∀ gs, process_files_arg (files ++ gs) =
      process_files_arg files ++ process_files_arg gs)
    ∧ (∀ x ∈ process_files_arg files, x ≠ "" ∧ pyStrip x = x)
    ∧ (∀ x ∈ process_files_arg files,
        ∃ fa ∈ files, ∃ ln ∈ pySplitlines fa, x = pyStrip ln)
    ∧ process_files_arg ["file1.txt\nfile2.txt\n"] = ["file1.txt", "file2.txt"]
    ∧ process_files_arg ["  a \n \n b "] = ["a", "b"]
    ∧ process_files_arg [""] = [] := by
  have hmem : ∀ x ∈ process_files_arg files,
      (x ≠ "" ∧ pyStrip x = x)
      ∧ ∃ fa ∈ files, ∃ ln ∈ pySplitlines fa, x = pyStrip ln := by
    intro x hx
    simp only [process_files_arg, List.mem_flatMap, List.mem_filterMap] at hx
    obtain ⟨fa, hfa, ln, hln, hx⟩ := hx
    by_cases hs : pyStrip ln = "" <;> simp [hs] at hx
    subst hx
    exact ⟨⟨hs, pyStrip_idem ln⟩, fa, hfa, ln, hln, rfl⟩
  refine ⟨?_, fun x hx => (hmem x hx).1, fun x hx => (hmem x hx).2,
    by decide, by decide, rfl⟩
  intro gs
  simp [process_files_arg]

/-- Witness for C3 on the spec's second example. -/
theorem C3_process_files_arg_spec_witness :
    "a" ≠ "" ∧ pyStrip "a" = "a" :=
  (C3_process_files_arg_spec ["  a \n \n b "]).2.1 "a" (by decide)

/-- When every upload succeeds, the upload loop records one call per file in
order and returns the handles in order. -/
theorem uploadLoop_ok (client : Client ε F) (files : List String)
    (hok : ∀ f ∈ files, ∃ u, client.upload_file f = .ok u) :
    uploadLoop client files =
      (files.map Event.uploadCall, .ok (uploadsOf client files)) := by
  induction files with
  | nil => rfl
  | cons f fs ih =>
    obtain ⟨u, hu⟩ := hok f (by simp)
    have ih' := ih (fun g hg => hok g (by simp [hg]))
    simp [uploadLoop, hu, ih', uploadsOf, List.filterMap_cons, Except.toOption,
      Except.map]

/-- When every upload succeeds there is exactly one handle per file. -/
theorem uploadsOf_length (client : Client ε F) (files : List String)
    (hok : ∀ f ∈ files, ∃ u, client.upload_file f = .ok u) :
    (uploadsOf client files).length = files.length := by
  induction files with
  | nil => rfl
  | cons f fs ih =>
    obtain ⟨u, hu⟩ := hok f (by simp)
    have ih' := ih (fun g hg => hok g (by simp [hg]))
    simp [uploadsOf, List.filterMap_cons, hu, Except.toOption] at ih' ⊢
    exact ih'

/-- The upload loop stops at the first failing upload and propagates its
error unchanged, with no call made after the failing one. -/
theorem uploadLoop_error (client : Client ε F) (fs1 : List String) (f : String)
    (fs2 : List String) (e : ε)
    (h1 : ∀ g ∈ fs1, ∃ u, client.upload_file g = .ok u)
    (h2 : client.upload_file f = .error e) :
    uploadLoop client (fs1 ++ f :: fs2) =
      (fs1.map Event.uploadCall ++ [Event.uploadCall f], .error e) := by
  induction fs1 with
  | nil => simp [uploadLoop, h2]
  | cons g gs ih =>
    obtain ⟨u, hu⟩ := h1 g (by simp)
    have ih' := ih (fun g' hg' => h1 g' (by simp [hg']))
    simp [uploadLoop, hu, ih', Except.map]

/-- Evaluation of `main` when every upload succeeds: the trace is the upload
calls in order followed by the single grouped send, and the result is
determined by the outcome of that send. -/
theorem main_eq_ok (client : Client ε F) (dest msg : String) (files : List String)
    (hok : ∀ f ∈ files, ∃ u, client.upload_file f = .ok u) :
    main client dest msg files =
      (files.map Event.uploadCall ++
        [Event.sendCall dest (uploadsOf client files)
          (captionList msg (uploadsOf client files).length)],
       match client.send_file dest (uploadsOf client files)
          (captionList msg (uploadsOf client files).length) with
       | .error e => .error e
       | .ok sr =>
         .ok ⟨(normalizeSent sr).map
            (fun m => build_message_url m.peer_id m.id (usernameOf client dest)),
          (normalizeSent sr).map (fun m => m.id)⟩) := by
  have hu := uploadLoop_ok client files hok
  cases hsr : client.send_file dest (uploadsOf client files)
      (captionList msg (uploadsOf client files).length) <;>
    simp [main, hu, hsr]

/-- C2: for every destination, caption and non-empty file list of length `N`,
the orchestrator makes exactly `N` upload calls, sequentially in list order,
followed by exactly one grouped-send call; the send's caption list has
length `N`, holds `None` at every position but the last, and the provided
caption at the last position; for `N = 1` it is exactly `[caption]`. -/
theorem C2_upload_then_group_send (client : Client ε F) (dest msg : String)
    (files : List String) (hne : files ≠ [])
    (hok : ∀ f ∈ files, ∃ u, client.upload_file f = .ok u) :
    (main client dest msg files).1 =
      files.map Event.uploadCall ++
        [Event.sendCall dest (uploadsOf client files)
          (captionList msg (uploadsOf client files).length)]
    ∧ (captionList msg (uploadsOf client files).length).length = files.length
    ∧ (∀ i, i < files.length - 1 →
        (captionList msg (uploadsOf client files).length)[i]? = some none)
    ∧ (captionList msg (uploadsOf client files).length).getLast? = some (some msg)
    ∧ (files.length = 1 →
        captionList msg (uploadsOf client files).length = [some msg]) := by
  have hlen := uploadsOf_length client files hok
  have hpos : 0 < files.length := List.length_pos.mpr hne
  refine ⟨?_, ?_, ?_, ?_, ?_⟩
  · rw [main_eq_ok client dest msg files hok]
  · simp [captionList, hlen]
    omega
  · intro i hi
    rw [captionList, hlen, List.getElem?_append_left (by simpa using hi),
      List.getElem?_replicate, if_pos hi]
  · exact List.getLast?_concat _
  · intro h1
    simp [captionList, hlen, h1]

/-- Witness for C2: two files against the always-succeeding client. -/
theorem C2_upload_then_group_send_witness :
    (main demoClient "d" "cap" ["a", "bb"]).1 =
      ["a", "bb"].map Event.uploadCall ++
        [Event.sendCall "d" (uploadsOf demoClient ["a", "bb"])
          (captionList "cap" (uploadsOf demoClient ["a", "bb"]).length)] :=
  (C2_upload_then_group_send demoClient "d" "cap" ["a", "bb"] (by decide)
    (fun f _ => ⟨f.length, rfl⟩)).1

/-- C5: a raised error of the upload call or of the grouped-send call
propagates out of `main` unchanged: the trace stops at the failing call (no
retry, no later upload or send call) and the error value is preserved. -/
theorem C5_error_propagation (client : Client ε F) (dest msg : String) :
    (∀ fs1 f fs2 e, (∀ g ∈ fs1, ∃ u, client.upload_file g = .ok u) →
      client.upload_file f = .error e →
      main client dest msg (fs1 ++ f :: fs2) =
        (fs1.map Event.uploadCall ++ [Event.uploadCall f], .error e))
    ∧ (∀ files e, (∀ g ∈ files, ∃ u, client.upload_file g = .ok u) →
      client.send_file dest (uploadsOf client files)
          (captionList msg (uploadsOf client files).length) = .error e →
      main client dest msg files =
        (files.map Event.uploadCall ++
          [Event.sendCall dest (uploadsOf client files)
            (captionList msg (uploadsOf client files).length)],
         .error e)) := by
  constructor
  · intro fs1 f fs2 e h1 h2
    have hL := uploadLoop_error client fs1 f fs2 e h1 h2
    simp [main, hL]
  · intro files e hok hsend
    rw [main_eq_ok client dest msg files hok, hsend]

/-- Witness for C5: the second upload fails and `main` stops there with the
original error value. -/
theorem C5_error_propagation_witness :
    main failUploadClient "d" "cap" (["a"] ++ "bad" :: []) =
      (["a"].map Event.uploadCall ++ [Event.uploadCall "bad"],
       .error "upload boom") :=
  (C5_error_propagation failUploadClient "d" "cap").1 ["a"] "bad" [] "upload boom"
    (fun g hg => ⟨g.length, by fin_cases hg; rfl⟩) rfl

/-- Every URL built by `build_message_url` ends in a slash followed by the
decimal message id. -/
theorem build_message_url_ends (peer : Peer) (mid : Nat) (u : Option String) :
    ∃ q, build_message_url peer mid u = q ++ "/" ++ Nat.repr mid := by
  unfold build_message_url
  split
  · exact ⟨"https://t.me/" ++ u.getD "", rfl⟩
  · cases peer with
    | channel i => exact ⟨"https://t.me/c/" ++ Nat.repr i, rfl⟩
    | chat i => exact ⟨"https://t.me/c/" ++ Nat.repr i, rfl⟩
    | user i => exact ⟨"https://t.me/c/" ++ Nat.repr i, rfl⟩

/-- C7: when every upload succeeds and the grouped send returns one message
per file, the `UploadResult` has exactly `N` URLs and `N` ids, index-aligned,
and every aligned pair has its URL ending in `/` followed by the decimal id. -/
theorem C7_result_alignment (client : Client ε F) (dest msg : String)
    (files : List String) (sr : SendRet)
    (hok : ∀ f ∈ files, ∃ u, client.upload_file f = .ok u)
    (hsend : client.send_file dest (uploadsOf client files)
      (captionList msg (uploadsOf client files).length) = .ok sr)
    (hN : (normalizeSent sr).length = files.length) :
    ∃ r, (main client dest msg files).2 = .ok r
      ∧ r.message_urls.length = files.length
      ∧ r.message_ids.length = files.length
      ∧ ∀ pr ∈ r.message_urls.zip r.message_ids,
          ∃ q, pr.1 = q ++ "/" ++ Nat.repr pr.2 := by
  refine ⟨⟨(normalizeSent sr).map
      (fun m => build_message_url m.peer_id m.id (usernameOf client dest)),
    (normalizeSent sr).map (fun m => m.id)⟩, ?_, by simp [hN], by simp [hN], ?_⟩
  · rw [main_eq_ok client dest msg files hok, hsend]
  · intro pr hpr
    rw [List.zip_map'] at hpr
    simp only [List.mem_map] at hpr
    obtain ⟨m, _, rfl⟩ := hpr
    exact build_message_url_ends m.peer_id m.id (usernameOf client dest)

/-- Witness for C7: two files, two sent messages. -/
theorem C7_result_alignment_witness :
    ∃ r, (main demoClient "d" "cap" ["a", "bb"]).2 = .ok r
      ∧ r.message_urls.length = (["a", "bb"] : List String).length
      ∧ r.message_ids.length = (["a", "bb"] : List String).length
      ∧ ∀ pr ∈ r.message_urls.zip r.message_ids,
          ∃ q, pr.1 = q ++ "/" ++ Nat.repr pr.2 :=
  C7_result_alignment demoClient "d" "cap" ["a", "bb"]
    (.listed [⟨101, .channel 555⟩, ⟨102, .channel 555⟩])
    (fun f _ => ⟨f.length, rfl⟩) rfl rfl

/-- C9: a raised error of the entity-resolution call is swallowed: the upload
still completes with an `ok` result, the error never surfaces, and every URL
is built with the alias absent. -/
theorem C9_alias_resolution_swallowed (client : Client ε F) (dest msg : String)
    (files : List String) (sr : SendRet) (e : ε)
    (hok : ∀ f ∈ files, ∃ u, client.upload_file f = .ok u)
    (hsend : client.send_file dest (uploadsOf client files)
      (captionList msg (uploadsOf client files).length) = .ok sr)
    (hent : client.get_entity dest = .error e) :
    (main client dest msg files).2 =
      .ok ⟨(normalizeSent sr).map (fun m => build_message_url m.peer_id m.id none),
        (normalizeSent sr).map (fun m => m.id)⟩ := by
  have hu : usernameOf client dest = none := by simp [usernameOf, hent]
  rw [main_eq_ok client dest msg files hok, hsend, hu]

/-- Witness for C9: the entity-resolving client always raises, yet the upload
of one file completes and its URL is alias-free. -/
theorem C9_alias_resolution_swallowed_witness :
    (main failEntityClient "d" "cap" ["a"]).2 =
      .ok ⟨[build_message_url (.channel 555) 101 none], [101]⟩ :=
  C9_alias_resolution_swallowed failEntityClient "d" "cap" ["a"]
    (.listed [⟨101, .channel 555⟩]) "resolve boom"
    (fun f _ => ⟨f.length, rfl⟩) rfl rfl

/-- The function `Nat.digitChar` never returns a comma. -/
theorem digitChar_ne_comma (n : Nat) : Nat.digitChar n ≠ ',' := by
  unfold Nat.digitChar
  by_cases h0 : n = 0
  · subst h0; decide
  rw [if_neg h0]
  by_cases h1 : n = 1
  · subst h1; decide
  rw [if_neg h1]
  by_cases h2 : n = 2
  · subst h2; decide
  rw [if_neg h2]
  by_cases h3 : n = 3
  · subst h3; decide
  rw [if_neg h3]
  by_cases h4 : n = 4
  · subst h4; decide
  rw [if_neg h4]
  by_cases h5 : n = 5
  · subst h5; decide
  rw [if_neg h5]
  by_cases h6 : n = 6
  · subst h6; decide
  rw [if_neg h6]
  by_cases h7 : n = 7
  · subst h7; decide
  rw [if_neg h7]
  by_cases h8 : n = 8
  · subst h8; decide
  rw [if_neg h8]
  by_cases h9 : n = 9
  · subst h9; decide
  rw [if_neg h9]
  by_cases h10 : n = 0xa
  · subst h10; decide
  rw [if_neg h10]
  by_cases h11 : n = 0xb
  · subst h11; decide
  rw [if_neg h11]
  by_cases h12 : n = 0xc
  · subst h12; decide
  rw [if_neg h12]
  by_cases h13 : n = 0xd
  · subst h13; decide
  rw [if_neg h13]
  by_cases h14 : n = 0xe
  · subst h14; decide
  rw [if_neg h14]
  by_cases h15 : n = 0xf
  · subst h15; decide
  rw [if_neg h15]
  decide

/-- The function `Nat.toDigitsCore` in base 10 never emits a comma. -/
theorem toDigitsCore_ne_comma :
    ∀ (fuel n : Nat) (acc : List Char), (∀ c ∈ acc, c ≠ ',') →
      ∀ c ∈ Nat.toDigitsCore 10 fuel n acc, c ≠ ',' := by
  intro fuel
  induction fuel with
  | zero =>
    intro n acc hacc c hc
    exact hacc c (by simpa [Nat.toDigitsCore] using hc)
  | succ fuel ih =>
    intro n acc hacc c hc
    simp only [Nat.toDigitsCore] at hc
    split at hc
    · rcases List.mem_cons.mp hc with rfl | hmem
      · exact digitChar_ne_comma _
      · exact hacc c hmem
    · refine ih (n / 10) (Nat.digitChar (n % 10) :: acc) ?_ c hc
      intro c' hc'
      rcases List.mem_cons.mp hc' with rfl | hmem
      · exact digitChar_ne_comma _
      · exact hacc c' hmem

/-- The decimal representation of a natural number contains no comma. -/
theorem repr_ne_comma (n : Nat) : ∀ c ∈ (Nat.repr n).data, c ≠ ',' := by
  intro c hc
  exact toDigitsCore_ne_comma (n + 1) n [] (by simp) c hc

/-- Splitting a comma-free character list yields the single field. -/
theorem pySplitCommaAux_no_comma (xs : List Char) (acc : List Char)
    (h : ∀ c ∈ xs, c ≠ ',') :
    pySplitCommaAux xs acc = [⟨acc.reverse ++ xs⟩] := by
  induction xs generalizing acc with
  | nil => simp [pySplitCommaAux]
  | cons c cs ih =>
    have hc : c ≠ ',' := h c (by simp)
    rw [pySplitCommaAux, if_neg hc, ih (c :: acc) (fun c' hc' => h c' (by simp [hc']))]
    simp

/-- Splitting past a comma-free chunk followed by a comma produces the chunk
as one field and continues on the remainder. -/
theorem pySplitCommaAux_append (xs ys acc : List Char)
    (h : ∀ c ∈ xs, c ≠ ',') :
    pySplitCommaAux (xs ++ ',' :: ys) acc =
      ⟨acc.reverse ++ xs⟩ :: pySplitCommaAux ys [] := by
  induction xs generalizing acc with
  | nil => simp [pySplitCommaAux]
  | cons c cs ih =>
    have hc : c ≠ ',' := h c (by simp)
    rw [List.cons_append, pySplitCommaAux, if_neg hc,
      ih (c :: acc) (fun c' hc' => h c' (by simp [hc']))]
    simp

/-- Splitting on commas is a left inverse of comma-joining, for a non-empty
list of comma-free fields. -/
theorem pySplitComma_joinComma (l : List String) (hne : l ≠ [])
    (h : ∀ s ∈ l, ∀ c ∈ s.data, c ≠ ',') :
    pySplitComma (joinComma l) = l := by
  induction l with
  | nil => exact absurd rfl hne
  | cons s rest ih =>
    cases rest with
    | nil =>
      show pySplitCommaAux s.data [] = [s]
      rw [pySplitCommaAux_no_comma s.data [] (h s (by simp))]
      simp
    | cons t ts =>
      have hdata : (s ++ "," ++ joinComma (t :: ts)).data =
          s.data ++ ',' :: (joinComma (t :: ts)).data := by
        simp
      show pySplitCommaAux (joinComma (s :: t :: ts)).data [] = s :: t :: ts
      rw [show joinComma (s :: t :: ts) = s ++ "," ++ joinComma (t :: ts) from rfl,
        hdata, pySplitCommaAux_append s.data _ [] (h s (by simp))]
      have ihr := ih (by simp) (fun s' hs' => h s' (by simp [hs']))
      rw [show pySplitCommaAux (joinComma (t :: ts)).data [] =
        pySplitComma (joinComma (t :: ts)) from rfl, ihr]
      simp

/-- C8 counterexample: at `M = 0` the round-trip fails — the reporter raises
`IndexError` rather than completing the write, and even the (written) empty
`message_ids` value re-splits to `[""]`, not to the original empty list. -/
theorem C8_roundtrip_counterexample :
    write_github_output (some "out") ⟨[], []⟩ =
      .indexError "message_urls=\nmessage_ids=\n"
    ∧ pySplitComma (joinComma (([] : List Nat).map Nat.repr)) = [""]
    ∧ ([""] : List String) ≠ ([] : List Nat).map Nat.repr := by
  refine ⟨by decide, rfl, by decide⟩

/-- C8 (amended): for every `UploadResult` with `M ≥ 1` entries in both
lists, writing through the reporter to a configured sink appends a
`message_ids=` line whose value, re-split on commas, is exactly the original
`M` decimal id strings in order. -/
theorem C8_roundtrip_spec (r : UploadResult) (path : String) (hp : path ≠ "")
    (u0 : String) (us : List String) (i0 : Nat) (is0 : List Nat)
    (hu : r.message_urls = u0 :: us) (hi : r.message_ids = i0 :: is0) :
    ∃ v rest,
      write_github_output (some path) r =
        .ok ("message_urls=" ++ joinComma r.message_urls ++ "\n" ++
          ("message_ids=" ++ v ++ "\n") ++ rest)
      ∧ pySplitComma v = r.message_ids.map Nat.repr := by
  refine ⟨joinComma (r.message_ids.map Nat.repr),
    "message_url=" ++ u0 ++ "\n" ++ "message_id=" ++ Nat.repr i0 ++ "\n", ?_, ?_⟩
  · rw [write_github_output_ok r path hp u0 us i0 is0 hu hi]
    congr 1
    apply String.ext
    simp
  · refine pySplitComma_joinComma (r.message_ids.map Nat.repr) (by simp [hi]) ?_
    intro s hs
    simp only [List.mem_map] at hs
    obtain ⟨n, _, rfl⟩ := hs
    exact repr_ne_comma n

/-- Witness for C8 on a one-entry result. -/
theorem C8_roundtrip_spec_witness :
    ∃ v rest,
      write_github_output (some "out") ⟨["https://t.me/c/5/7"], [7]⟩ =
        .ok ("message_urls=" ++ joinComma ["https://t.me/c/5/7"] ++ "\n" ++
          ("message_ids=" ++ v ++ "\n") ++ rest)
      ∧ pySplitComma v = [7].map Nat.repr :=
  C8_roundtrip_spec ⟨["https://t.me/c/5/7"], [7]⟩ "out" (by decide)
    "https://t.me/c/5/7" [] 7 [] rfl rfl

end TFU
